import Mathlib

/-!
Verification of the CRUD GraphQL service of
`hexrcs/fullstack-graphql-next-nexus-prisma`.

The data shapes (`User`, `UserWhereUniqueInput`, `UserWhereInput`,
`StringFilter`, `NestedStringFilter`, `QueryMode`, `UserCreateInput`,
`UserUpdateInput`, `UserUpdateManyMutationInput`,
`StringFieldUpdateOperationsInput`, `BatchPayload`) are embedded from
`src/generated/graphql.tsx`; the resolvers `allUsers` and `bigRedButton`
from `src/graphql/schema.ts`; the `User` model from the Prisma schema in
the repository README.  The Prisma-client store operations behind the
generated CRUD resolvers are not part of the repository's own sources and
are modelled from the spec (§4.1), as marked on each definition.
-/

namespace FullstackGraphql

/-- The `User` entity of `src/generated/graphql.tsx` (lines 15-19) and of the
Prisma model: a string `id` and a string `name`. -/
structure User where
  id : String
  name : String
deriving DecidableEq, Repr

/-- `QueryMode` enum of `src/generated/graphql.tsx` (lines 129-132). -/
inductive QueryMode where
  | default
  | insensitive
deriving DecidableEq, Repr

/-- `NestedStringFilter` of `src/generated/graphql.tsx` (lines 134-146):
all per-field string predicates, plus a nested negated filter.  Recursive,
hence an inductive with named constructor arguments (`in` is a Lean keyword,
so that field is called `in?`). -/
inductive NestedStringFilter where
  | mk (equals : Option String) (in? : Option (List String))
      (notIn : Option (List String))
      (lt : Option String) (lte : Option String)
      (gt : Option String) (gte : Option String)
      (contains : Option String) (startsWith : Option String)
      (endsWith : Option String)
      (not : Option NestedStringFilter) : NestedStringFilter

/-- `StringFilter` of `src/generated/graphql.tsx` (lines 110-123): same
predicates as `NestedStringFilter` plus the case-sensitivity `mode`. -/
structure StringFilter where
  equals : Option String := none
  in? : Option (List String) := none
  notIn : Option (List String) := none
  lt : Option String := none
  lte : Option String := none
  gt : Option String := none
  gte : Option String := none
  contains : Option String := none
  startsWith : Option String := none
  endsWith : Option String := none
  mode : Option QueryMode := none
  not : Option NestedStringFilter := none

/-- `UserWhereInput` of `src/generated/graphql.tsx` (lines 92-98): logical
composition `AND`/`OR`/`NOT` over sub-filters plus per-field filters. -/
inductive UserWhereInput where
  | mk (AND? : Option (List UserWhereInput))
      (OR? : Option (List UserWhereInput))
      (NOT? : Option (List UserWhereInput))
      (id : Option StringFilter)
      (name : Option StringFilter) : UserWhereInput

/-- `UserWhereUniqueInput` of `src/generated/graphql.tsx` (lines 78-80):
the lone field `id` is optional in the exposed contract. -/
structure UserWhereUniqueInput where
  id : Option String := none
deriving DecidableEq, Repr

/-- `UserCreateInput` of `src/generated/graphql.tsx` (lines 82-85):
optional `id`, required `name`. -/
structure UserCreateInput where
  id : Option String := none
  name : String
deriving DecidableEq, Repr

/-- `StringFieldUpdateOperationsInput` of `src/generated/graphql.tsx`
(lines 125-127): an optional `set` value. -/
structure StringFieldUpdateOperationsInput where
  set : Option String := none
deriving DecidableEq, Repr

/-- `UserUpdateInput` of `src/generated/graphql.tsx` (lines 100-103):
per-field set operations; note that `id` is among the updatable fields. -/
structure UserUpdateInput where
  id : Option StringFieldUpdateOperationsInput := none
  name : Option StringFieldUpdateOperationsInput := none
deriving DecidableEq, Repr

/-- `UserUpdateManyMutationInput` of `src/generated/graphql.tsx`
(lines 105-108): identical fields to `UserUpdateInput`. -/
structure UserUpdateManyMutationInput where
  id : Option StringFieldUpdateOperationsInput := none
  name : Option StringFieldUpdateOperationsInput := none
deriving DecidableEq, Repr

/-- `BatchPayload` of `src/generated/graphql.tsx` (lines 87-90). -/
structure BatchPayload where
  count : Nat
deriving DecidableEq, Repr

/-- Case folding for the `insensitive` query mode (spec §4.1: substring
tests are case-insensitive when mode is `insensitive`). -/
def caseFold (mode : QueryMode) (cs : List Char) : List Char :=
  match mode with
  | .default => cs
  | .insensitive => cs.map Char.toLower

/-- `true` when the optional predicate argument is absent or holds. -/
def optHolds (o : Option α) (p : α → Bool) : Bool :=
  match o with
  | none => true
  | some v => p v

/-- `l₁` occurs as a contiguous run inside `l₂`. -/
def listSubstr (l₁ l₂ : List Char) : Bool :=
  match l₂ with
  | [] => l₁.isEmpty
  | c :: t => l₁.isPrefixOf (c :: t) || listSubstr l₁ t

/-- `l₁` is a suffix of `l₂`. -/
def listIsSuffix (l₁ l₂ : List Char) : Bool :=
  l₁.reverse.isPrefixOf l₂.reverse

/-- Modelled from the spec (§4.1 filter semantics): evaluation of the
per-field string predicates of a `NestedStringFilter` on a field value,
under a case-sensitivity mode.  All predicates are ANDed; comparison
operators use lexicographic string ordering; `contains`/`startsWith`/
`endsWith` are substring tests, case-folded when the mode is
`insensitive`; `not` negates the nested filter. -/
def nestedStringFilterMatches (mode : QueryMode) : NestedStringFilter → String → Bool
  | .mk equals in? notIn lt lte gt gte contains startsWith endsWith not?, s =>
    optHolds equals (fun v => s == v) &&
    optHolds in? (fun vs => vs.contains s) &&
    optHolds notIn (fun vs => !vs.contains s) &&
    optHolds lt (fun v => decide (s < v)) &&
    optHolds lte (fun v => decide (s ≤ v)) &&
    optHolds gt (fun v => decide (v < s)) &&
    optHolds gte (fun v => decide (v ≤ s)) &&
    optHolds contains (fun v => listSubstr (caseFold mode v.toList) (caseFold mode s.toList)) &&
    optHolds startsWith (fun v => (caseFold mode v.toList).isPrefixOf (caseFold mode s.toList)) &&
    optHolds endsWith (fun v => listIsSuffix (caseFold mode v.toList) (caseFold mode s.toList)) &&
    (match not? with
     | none => true
     | some f => !nestedStringFilterMatches mode f s)

/-- Repack a `StringFilter`'s predicate fields as a `NestedStringFilter`
(dropping the `mode`, which is passed separately). -/
def StringFilter.toNested (f : StringFilter) : NestedStringFilter :=
  .mk f.equals f.in? f.notIn f.lt f.lte f.gt f.gte f.contains f.startsWith
    f.endsWith f.not

/-- Modelled from the spec (§4.1): evaluation of a `StringFilter` on a
field value, the mode defaulting to case-sensitive. -/
def stringFilterMatches (f : StringFilter) (s : String) : Bool :=
  nestedStringFilterMatches (f.mode.getD .default) f.toNested s

mutual

/-- Modelled from the spec (§4.1): evaluation of a `UserWhereInput` on a
`User`.  `AND` requires every sub-filter, `OR` at least one, `NOT` none;
absent clauses are vacuously true; field predicates are ANDed in. -/
def userWhereMatches : UserWhereInput → User → Bool
  | .mk a o n idF nameF, u =>
    optForestAll a u && optForestAny o u && optForestNone n u &&
    optHolds idF (fun f => stringFilterMatches f u.id) &&
    optHolds nameF (fun f => stringFilterMatches f u.name)

/-- An absent `AND` clause holds; a present one requires every sub-filter. -/
def optForestAll : Option (List UserWhereInput) → User → Bool
  | none, _ => true
  | some fs, u => forestAll fs u

/-- Every filter in the list matches. -/
def forestAll : List UserWhereInput → User → Bool
  | [], _ => true
  | f :: fs, u => userWhereMatches f u && forestAll fs u

/-- An absent `OR` clause holds; a present one requires some sub-filter. -/
def optForestAny : Option (List UserWhereInput) → User → Bool
  | none, _ => true
  | some fs, u => forestAny fs u

/-- Some filter in the list matches. -/
def forestAny : List UserWhereInput → User → Bool
  | [], _ => false
  | f :: fs, u => userWhereMatches f u || forestAny fs u

/-- An absent `NOT` clause holds; a present one requires no sub-filter. -/
def optForestNone : Option (List UserWhereInput) → User → Bool
  | none, _ => true
  | some fs, u => forestNone fs u

/-- No filter in the list matches. -/
def forestNone : List UserWhereInput → User → Bool
  | [], _ => true
  | f :: fs, u => (!userWhereMatches f u) && forestNone fs u

end

/-- An optional `where` argument: absent means every `User` matches
(spec §4.1: empty filter returns all Users). -/
def matchesOpt (F : Option UserWhereInput) (u : User) : Bool :=
  match F with
  | none => true
  | some f => userWhereMatches f u

/-- Modelled from the spec (§7 error taxonomy): `NotFound` (referenced User
absent) and `ConflictError` (duplicate id). -/
inductive StoreError where
  | NotFound
  | ConflictError
deriving DecidableEq, Repr

/-- Modelled from the spec (§3, §4.1): the Entity Store.  `users` is the
canonical record set; `usedIds` records every id ever assigned to a live
User, so that generated ids can be proved fresh with respect to the whole
history ("previously-unused", spec §8). -/
structure Store where
  users : List User
  usedIds : List String
deriving DecidableEq, Repr

/-- The longest length among a list of strings. -/
def maxLen (l : List String) : Nat :=
  l.foldr (fun s m => max s.length m) 0

/-- Modelled from the spec (§4.1 `create`): generation of "a fresh unique
id" — a concrete id strictly longer than every id ever used, hence not
among them. -/
def freshId (used : List String) : String :=
  String.mk (List.replicate (maxLen used + 1) 'a')

/-- Does some live `User` carry this id? -/
def idInUse (s : Store) (i : String) : Bool :=
  s.users.any (fun u => u.id == i)

/-- Modelled from the spec (§4.1 `findMany`): all Users matching an
optional filter; an absent filter returns all Users. -/
def findMany (F : Option UserWhereInput) (s : Store) : List User :=
  s.users.filter (fun u => matchesOpt F u)

/-- A `UserWhereUniqueInput` matches a `User` when it supplies that
User's id; one supplying no id matches nothing. -/
def matchesUnique (w : UserWhereUniqueInput) (u : User) : Bool :=
  match w.id with
  | none => false
  | some i => u.id == i

/-- The `user` query (`t.crud.user()` in `src/graphql/schema.ts` line 21).
Modelled from the spec (§4.2): `findUnique`; null — not an error — when
absent. -/
def user (w : UserWhereUniqueInput) (s : Store) : Option User :=
  s.users.find? (fun u => matchesUnique w u)

/-- The `allUsers` resolver of `src/graphql/schema.ts` (lines 15-20):
`findMany({})`, i.e. `findMany` with no `where` clause. -/
def allUsers (s : Store) : List User :=
  findMany none s

/-- `createOneUser` (`t.crud.createOneUser()` in `src/graphql/schema.ts`
line 36).  Modelled from the spec (§4.1 `create`): fails with
`ConflictError` when the supplied id is already in use by a live User;
otherwise inserts, generating a fresh id when none is supplied.  The new
id is recorded in `usedIds`. -/
def createOneUser (d : UserCreateInput) (s : Store) : Except StoreError (User × Store) :=
  match d.id with
  | some i =>
    if idInUse s i then .error .ConflictError
    else
      let u : User := ⟨i, d.name⟩
      .ok (u, ⟨u :: s.users, i :: s.usedIds⟩)
  | none =>
    let i := freshId s.usedIds
    let u : User := ⟨i, d.name⟩
    .ok (u, ⟨u :: s.users, i :: s.usedIds⟩)

/-- `deleteOneUser` (`t.crud.deleteOneUser()` in `src/graphql/schema.ts`
line 37).  Modelled from the spec (§4.2): removes and returns the User
with the given id; a missing User yields null — not an error — and leaves
the store unchanged. -/
def deleteOneUser (w : UserWhereUniqueInput) (s : Store) : Option User × Store :=
  match s.users.find? (fun u => matchesUnique w u) with
  | none => (none, s)
  | some u => (some u, { s with users := s.users.filter (fun v => !matchesUnique w v) })

/-- `deleteManyUser` (`t.crud.deleteManyUser()` in `src/graphql/schema.ts`
line 38).  Modelled from the spec (§4.1 `deleteMany`): removes every User
matching the optional filter and reports how many in a `BatchPayload`. -/
def deleteManyUser (F : Option UserWhereInput) (s : Store) : BatchPayload × Store :=
  ((⟨(s.users.filter (fun u => matchesOpt F u)).length⟩ : BatchPayload),
    { s with users := s.users.filter (fun u => !matchesOpt F u) })

/-- Application of a `UserUpdateInput`'s per-field set operations to a
`User`: each field with a supplied `set` value is replaced, the rest kept
(spec §4.3). -/
def applyUpdate (d : UserUpdateInput) (u : User) : User :=
  { id := ((d.id).bind (fun o => o.set)).getD u.id,
    name := ((d.name).bind (fun o => o.set)).getD u.name }

/-- Application of a `UserUpdateManyMutationInput`, field for field as in
`applyUpdate`. -/
def applyUpdateMany (d : UserUpdateManyMutationInput) (u : User) : User :=
  { id := ((d.id).bind (fun o => o.set)).getD u.id,
    name := ((d.name).bind (fun o => o.set)).getD u.name }

/-- `updateOneUser` (`t.crud.updateOneUser()` in `src/graphql/schema.ts`
line 39).  Modelled from the spec (§4.1 `updateOne`, §4.2): applies the
field changes to the unique User with the given id; a missing User yields
null — not an error.  The store upholds the §3 uniqueness invariant, as
the underlying unique constraint does: an update whose resulting ids
collide fails atomically with `ConflictError`.  Any id the update
introduces is recorded in `usedIds`. -/
def updateOneUser (d : UserUpdateInput) (w : UserWhereUniqueInput) (s : Store) :
    Except StoreError (Option User × Store) :=
  match s.users.find? (fun u => matchesUnique w u) with
  | none => .ok (none, s)
  | some u =>
    if ((s.users.map (fun v => if matchesUnique w v then applyUpdate d v else v)).map User.id).Nodup then
      .ok (some (applyUpdate d u),
        ⟨s.users.map (fun v => if matchesUnique w v then applyUpdate d v else v),
          (s.users.map (fun v => if matchesUnique w v then applyUpdate d v else v)).map User.id
            ++ s.usedIds⟩)
    else .error .ConflictError

/-- `updateManyUser` (`t.crud.updateManyUser()` in `src/graphql/schema.ts`
line 40).  Modelled from the spec (§4.1 `updateMany`): applies the field
changes to every User matching the optional filter and reports how many
matched; 0 is valid.  As in `updateOneUser`, a resulting id collision
fails atomically with `ConflictError`, and new ids are recorded. -/
def updateManyUser (d : UserUpdateManyMutationInput) (F : Option UserWhereInput) (s : Store) :
    Except StoreError (BatchPayload × Store) :=
  if ((s.users.map (fun v => if matchesOpt F v then applyUpdateMany d v else v)).map User.id).Nodup then
    .ok ((⟨(s.users.filter (fun u => matchesOpt F u)).length⟩ : BatchPayload),
      ⟨s.users.map (fun v => if matchesOpt F v then applyUpdateMany d v else v),
        (s.users.map (fun v => if matchesOpt F v then applyUpdateMany d v else v)).map User.id
          ++ s.usedIds⟩)
  else .error .ConflictError

/-- The `bigRedButton` resolver of `src/graphql/schema.ts` (lines 28-34):
`deleteMany({})` and the message `"<count> user(s) destroyed. Thanos will
be proud."`. -/
def bigRedButton (s : Store) : String × Store :=
  let r := deleteManyUser none s
  (toString r.1.count ++ " user(s) destroyed. Thanos will be proud.", r.2)

/-- A mutation run at the endpoint: a failed call leaves the store as it
was (spec §4.1: store operations mutate the record set atomically per
call). -/
def runCreateOneUser (d : UserCreateInput) (s : Store) : Except StoreError User × Store :=
  match createOneUser d s with
  | .ok (u, s') => (.ok u, s')
  | .error e => (.error e, s)

/-- Field declarations of a GraphQL input object type: field name and
whether the field is required (non-nullable without default). -/
structure InputFieldDecl where
  fname : String
  required : Bool
deriving DecidableEq, Repr

/-- The declaration of `UserWhereUniqueInput` in `src/generated/graphql.tsx`
(lines 78-80): the single field `id`, optional (`id?: Maybe<String>`). -/
def userWhereUniqueInputDecl : List InputFieldDecl :=
  [⟨"id", false⟩]

/-- Modelled from the spec (§4.4, §7 `ValidationError`): GraphQL
input-object validation of a set of provided field names against a
declaration — every required declared field must be provided and every
provided field must be declared; otherwise a `ValidationError` is raised
before any resolver runs. -/
def validateInput (decl : List InputFieldDecl) (provided : List String) : Bool :=
  decl.all (fun f => !f.required || provided.contains f.fname) &&
  provided.all (fun n => decl.any (fun f => f.fname == n))

/-- Modelled from the spec (§3 invariants): the Entity Store's invariant —
no two live Users share an id, and every live User's id is recorded among
the ids ever used. -/
def Inv (s : Store) : Prop :=
  (s.users.map User.id).Nodup ∧ ∀ u ∈ s.users, u.id ∈ s.usedIds

/-!  ## Helper lemmas -/

theorem le_maxLen_of_mem (l : List String) (x : String) :
    x ∈ l → x.length ≤ maxLen l := by
  induction l with
  | nil => intro hx; cases hx
  | cons a t ih =>
    intro hx
    simp only [maxLen, List.foldr_cons]
    rcases List.mem_cons.mp hx with rfl | hx
    · exact le_max_left _ _
    · exact le_trans (ih hx) (le_max_right _ _)

theorem freshId_length (used : List String) :
    (freshId used).length = maxLen used + 1 := by
  show (List.replicate (maxLen used + 1) 'a').length = maxLen used + 1
  exact List.length_replicate _ _

theorem freshId_not_mem (used : List String) : freshId used ∉ used := by
  intro hmem
  have h1 := le_maxLen_of_mem used _ hmem
  rw [freshId_length] at h1
  omega

theorem idInUse_iff (s : Store) (i : String) :
    idInUse s i = true ↔ i ∈ s.users.map User.id := by
  simp only [idInUse, List.any_eq_true, beq_iff_eq, List.mem_map]

theorem matchesOpt_none (u : User) : matchesOpt none u = true := rfl

theorem deleteManyUser_none_eq (s : Store) :
    deleteManyUser none s = (⟨s.users.length⟩, ⟨[], s.usedIds⟩) := by
  simp [deleteManyUser, matchesOpt_none]

/-!  ## The claims -/

/-- Claim C1: on a store with N users (including N = 0), `bigRedButton`
deletes every User, leaves the store empty, and returns exactly the string
`"N user(s) destroyed. Thanos will be proud."` where N is the number of
users deleted. -/
theorem bigRedButton_destroys_all (s : Store) :
    bigRedButton s
      = (toString s.users.length ++ " user(s) destroyed. Thanos will be proud.",
          ⟨[], s.usedIds⟩) := by
  simp [bigRedButton, deleteManyUser_none_eq]

/-- Claim C2: creating a User whose supplied id is already in use by a live
User fails with `ConflictError`, and the store after the failed call is
unchanged. -/
theorem createOneUser_conflict (s : Store) (i n : String)
    (h : ∃ u ∈ s.users, u.id = i) :
    createOneUser ⟨some i, n⟩ s = .error .ConflictError
  ∧ runCreateOneUser ⟨some i, n⟩ s = (.error .ConflictError, s) := by
  have hin : idInUse s i = true := by
    rw [idInUse_iff]
    obtain ⟨u, hu, hid⟩ := h
    exact List.mem_map.mpr ⟨u, hu, hid⟩
  refine ⟨?_, ?_⟩
  · simp [createOneUser, hin]
  · simp [runCreateOneUser, createOneUser, hin]

theorem createOneUser_conflict_witness :
    createOneUser ⟨some "1", "Bob"⟩ ⟨[⟨"1", "Alice"⟩], ["1"]⟩ = .error .ConflictError
  ∧ runCreateOneUser ⟨some "1", "Bob"⟩ ⟨[⟨"1", "Alice"⟩], ["1"]⟩
      = (.error .ConflictError, ⟨[⟨"1", "Alice"⟩], ["1"]⟩) :=
  createOneUser_conflict ⟨[⟨"1", "Alice"⟩], ["1"]⟩ "1" "Bob"
    ⟨⟨"1", "Alice"⟩, by simp, rfl⟩

/-- Claim C6: for every filter F, `deleteManyUser F` reports exactly the
number of Users matching F immediately before the call, and `findMany F`
run on the resulting store returns the empty sequence. -/
theorem deleteManyUser_spec (F : Option UserWhereInput) (s : Store) :
    (deleteManyUser F s).1.count = (findMany F s).length
  ∧ findMany F (deleteManyUser F s).2 = [] := by
  refine ⟨rfl, ?_⟩
  simp [findMany, deleteManyUser, List.filter_filter]

/-- Claim C8, counterexample: on the two-User store of the claim, the
filter `{name: {contains: "b", mode: insensitive}}` does NOT match the
User `{id: "1", name: "Alice"}` — the name "Alice" contains no "b" in
either case — so the filter does not match both Users. -/
theorem insensitiveContains_misses_alice :
    userWhereMatches
      (.mk none none none none (some { contains := some "b", mode := some .insensitive }))
      ⟨"1", "Alice"⟩ = false := by decide

/-- Claim C8, amended: on the two-User store `{id:"1",name:"Alice"}`,
`{id:"2",name:"bob"}`, the filter `{name:{contains:"b", mode: insensitive}}`
(a case-insensitive substring test) matches exactly the User
`{id:"2",name:"bob"}`. -/
theorem insensitiveContains_matches_bob_only :
    userWhereMatches
      (.mk none none none none (some { contains := some "b", mode := some .insensitive }))
      ⟨"2", "bob"⟩ = true
  ∧ findMany
      (some (.mk none none none none (some { contains := some "b", mode := some .insensitive })))
      ⟨[⟨"1", "Alice"⟩, ⟨"2", "bob"⟩], ["1", "2"]⟩ = [⟨"2", "bob"⟩] := by
  refine ⟨by decide, by decide⟩

/-- Claim C9: the `allUsers` query is extensionally the `findMany` with the
empty filter, and returns the list of all live Users. -/
theorem allUsers_is_findMany_empty (s : Store) :
    allUsers s = findMany none s ∧ allUsers s = s.users := by
  refine ⟨rfl, ?_⟩
  simp [allUsers, findMany, matchesOpt_none]

/-- Claim C10: the `id` field of `UserWhereUniqueInput` is optional in the
exposed contract — it has no required field at all — so the empty `where`
object `{}` passes input validation (no `ValidationError`). -/
theorem emptyWhereUnique_validates :
    validateInput userWhereUniqueInputDecl [] = true
  ∧ userWhereUniqueInputDecl.all (fun f => !f.required) = true := by
  refine ⟨by decide, by decide⟩

/-- Claim C4: with an id that matches no live User, the `user` query and
the `deleteOneUser` and `updateOneUser` mutations each return a null
result — not an error — and leave the store as it was; and no other
operation can surface `NotFound` at all: `createOneUser` and
`updateManyUser` never fail with it (`deleteManyUser`, `bigRedButton` and
`allUsers` are total by type). -/
theorem notFound_converted_to_null (s : Store) (i : String)
    (h : ∀ u ∈ s.users, u.id ≠ i) :
    user ⟨some i⟩ s = none
  ∧ deleteOneUser ⟨some i⟩ s = (none, s)
  ∧ (∀ d, updateOneUser d ⟨some i⟩ s = .ok (none, s))
  ∧ (∀ d, createOneUser d s ≠ .error .NotFound)
  ∧ (∀ d F, updateManyUser d F s ≠ .error .NotFound) := by
  have hf : s.users.find? (fun u => matchesUnique ⟨some i⟩ u) = none := by
    rw [List.find?_eq_none]
    intro u hu
    simp only [matchesUnique, beq_iff_eq]
    exact h u hu
  refine ⟨?_, ?_, ?_, ?_, ?_⟩
  · simp [user, hf]
  · simp [deleteOneUser, hf]
  · intro d; simp [updateOneUser, hf]
  · intro d
    unfold createOneUser
    cases d.id with
    | none => simp
    | some j => by_cases hj : idInUse s j <;> simp [hj]
  · intro d F
    unfold updateManyUser
    split <;> simp

theorem notFound_converted_to_null_witness :
    user ⟨some "9"⟩ ⟨[⟨"1", "Alice"⟩], ["1"]⟩ = none
  ∧ deleteOneUser ⟨some "9"⟩ ⟨[⟨"1", "Alice"⟩], ["1"]⟩ = (none, ⟨[⟨"1", "Alice"⟩], ["1"]⟩)
  ∧ updateOneUser ⟨none, some ⟨some "Bob"⟩⟩ ⟨some "9"⟩ ⟨[⟨"1", "Alice"⟩], ["1"]⟩
      = .ok (none, ⟨[⟨"1", "Alice"⟩], ["1"]⟩) :=
  ⟨(notFound_converted_to_null ⟨[⟨"1", "Alice"⟩], ["1"]⟩ "9" (by decide)).1,
   (notFound_converted_to_null ⟨[⟨"1", "Alice"⟩], ["1"]⟩ "9" (by decide)).2.1,
   (notFound_converted_to_null ⟨[⟨"1", "Alice"⟩], ["1"]⟩ "9" (by decide)).2.2.1
     ⟨none, some ⟨some "Bob"⟩⟩⟩

/-- Claim C5, counterexample: the exposed `UserUpdateInput`
(`src/generated/graphql.tsx` lines 100-103) includes an `id` set
operation, and applying `updateOneUser` with `{id: {set: "2"}}` to the
User created with id "1" changes that User's stored id to "2" — so a
User's id is NOT unchanged under arbitrary update inputs. -/
theorem updateOneUser_changes_id :
    updateOneUser ⟨some ⟨some "2"⟩, none⟩ ⟨some "1"⟩ ⟨[⟨"1", "Alice"⟩], ["1"]⟩
      = .ok (some ⟨"2", "Alice"⟩, ⟨[⟨"2", "Alice"⟩], ["2", "1"]⟩) := by rfl

/-- Claim C5, amended: a User's id never changes from the value assigned
at creation under any `updateOneUser` or `updateManyUser` whose update
input does not supply an `id` set operation; with such inputs the stored
id sequence is preserved exactly. -/
theorem id_stable_without_id_set (s : Store) (w : UserWhereUniqueInput)
    (d : UserUpdateInput) (dm : UserUpdateManyMutationInput) (F : Option UserWhereInput)
    (hd : d.id.bind (fun o => o.set) = none)
    (hdm : dm.id.bind (fun o => o.set) = none) :
    (∀ r s', updateOneUser d w s = .ok (r, s') →
        s'.users.map User.id = s.users.map User.id)
  ∧ (∀ r s', updateManyUser dm F s = .ok (r, s') →
        s'.users.map User.id = s.users.map User.id) := by
  have hid : ∀ u, (applyUpdate d u).id = u.id := by
    intro u; simp [applyUpdate, hd]
  have hidm : ∀ u, (applyUpdateMany dm u).id = u.id := by
    intro u; simp [applyUpdateMany, hdm]
  refine ⟨?_, ?_⟩
  · intro r s' hr
    unfold updateOneUser at hr
    split at hr
    · cases hr; rfl
    · split at hr
      · cases hr
        rw [List.map_map]
        apply List.map_congr_left
        intro v _
        by_cases hv : matchesUnique w v <;> simp [hv, hid]
      · cases hr
  · intro r s' hr
    unfold updateManyUser at hr
    split at hr
    · cases hr
      rw [List.map_map]
      apply List.map_congr_left
      intro v _
      by_cases hv : matchesOpt F v <;> simp [hv, hidm]
    · cases hr

theorem id_stable_without_id_set_witness :
    (⟨[⟨"1", "Bob"⟩], ["1", "1"]⟩ : Store).users.map User.id
      = (⟨[⟨"1", "Alice"⟩], ["1"]⟩ : Store).users.map User.id :=
  (id_stable_without_id_set ⟨[⟨"1", "Alice"⟩], ["1"]⟩ ⟨some "1"⟩
      ⟨none, some ⟨some "Bob"⟩⟩ ⟨none, none⟩ none rfl rfl).1
    (some ⟨"1", "Bob"⟩) ⟨[⟨"1", "Bob"⟩], ["1", "1"]⟩ (by rfl)

/-- Claim C7: a successful `updateManyUser` reports exactly the number of
Users matching the filter immediately before the update, keeps the store
the same length, and maps each position to its updated User when it
matched and to the untouched original otherwise. -/
theorem updateManyUser_spec (d : UserUpdateManyMutationInput) (F : Option UserWhereInput)
    (s : Store) (b : BatchPayload) (s' : Store)
    (h : updateManyUser d F s = .ok (b, s')) :
    b.count = (s.users.filter (fun u => matchesOpt F u)).length
  ∧ s'.users.length = s.users.length
  ∧ ∀ i : Nat, s'.users[i]? =
      (s.users[i]?).map (fun u => if matchesOpt F u then applyUpdateMany d u else u) := by
  unfold updateManyUser at h
  split at h
  · cases h
    refine ⟨rfl, List.length_map _ _, ?_⟩
    intro i
    exact List.getElem?_map _ _ _
  · cases h

theorem updateManyUser_spec_witness :
    (⟨1⟩ : BatchPayload).count
      = ((⟨[⟨"1", "Alice"⟩], ["1"]⟩ : Store).users.filter
          (fun u => matchesOpt none u)).length :=
  (updateManyUser_spec ⟨none, some ⟨some "Bob"⟩⟩ none ⟨[⟨"1", "Alice"⟩], ["1"]⟩
    ⟨1⟩ ⟨[⟨"1", "Bob"⟩], ["1", "1"]⟩ (by rfl)).1

/-!  ## Preservation of the uniqueness invariant (towards claim C3) -/

theorem Inv_createOneUser (s : Store) (h : Inv s) (d : UserCreateInput)
    (u : User) (s' : Store) (hc : createOneUser d s = .ok (u, s')) : Inv s' := by
  obtain ⟨hnd, hmem⟩ := h
  unfold createOneUser at hc
  split at hc
  · -- d.id = some i
    next i hdi =>
    split at hc
    · cases hc
    · next hin =>
      cases hc
      have hni : i ∉ s.users.map User.id := by
        intro hmm
        exact hin ((idInUse_iff s i).mpr hmm)
      refine ⟨?_, ?_⟩
      · rw [List.map_cons, List.nodup_cons]
        exact ⟨hni, hnd⟩
      · intro v hv
        rcases List.mem_cons.mp hv with rfl | hv
        · exact List.mem_cons_self _ _
        · exact List.mem_cons_of_mem _ (hmem v hv)
  · -- d.id = none: the store generates a fresh id
    cases hc
    have hni : freshId s.usedIds ∉ s.users.map User.id := by
      intro hmm
      obtain ⟨v, hv, hvid⟩ := List.mem_map.mp hmm
      exact freshId_not_mem s.usedIds (hvid ▸ hmem v hv)
    refine ⟨?_, ?_⟩
    · rw [List.map_cons, List.nodup_cons]
      exact ⟨hni, hnd⟩
    · intro v hv
      rcases List.mem_cons.mp hv with rfl | hv
      · exact List.mem_cons_self _ _
      · exact List.mem_cons_of_mem _ (hmem v hv)

theorem Inv_updateOneUser (s : Store) (h : Inv s) (d : UserUpdateInput)
    (w : UserWhereUniqueInput) (r : Option User) (s' : Store)
    (hc : updateOneUser d w s = .ok (r, s')) : Inv s' := by
  unfold updateOneUser at hc
  split at hc
  · cases hc; exact h
  · split at hc
    · next hnodup =>
      cases hc
      refine ⟨hnodup, ?_⟩
      intro v hv
      exact List.mem_append_left _ (List.mem_map_of_mem _ hv)
    · cases hc

theorem Inv_updateManyUser (s : Store) (_h : Inv s) (d : UserUpdateManyMutationInput)
    (F : Option UserWhereInput) (r : BatchPayload) (s' : Store)
    (hc : updateManyUser d F s = .ok (r, s')) : Inv s' := by
  unfold updateManyUser at hc
  split at hc
  · next hnodup =>
    cases hc
    refine ⟨hnodup, ?_⟩
    intro v hv
    exact List.mem_append_left _ (List.mem_map_of_mem _ hv)
  · cases hc

theorem Inv_deleteOneUser (s : Store) (h : Inv s) (w : UserWhereUniqueInput) :
    Inv (deleteOneUser w s).2 := by
  obtain ⟨hnd, hmem⟩ := h
  unfold deleteOneUser
  split
  · exact ⟨hnd, hmem⟩
  · refine ⟨?_, ?_⟩
    · exact List.Nodup.sublist ((s.users.filter_sublist).map _) hnd
    · intro v hv
      exact hmem v (List.mem_of_mem_filter hv)

theorem Inv_deleteManyUser (s : Store) (h : Inv s) (F : Option UserWhereInput) :
    Inv (deleteManyUser F s).2 := by
  obtain ⟨hnd, hmem⟩ := h
  refine ⟨?_, ?_⟩
  · exact List.Nodup.sublist ((s.users.filter_sublist).map _) hnd
  · intro v hv
    exact hmem v (List.mem_of_mem_filter hv)

theorem Inv_bigRedButton (s : Store) : Inv (bigRedButton s).2 := by
  show Inv (deleteManyUser none s).2
  rw [deleteManyUser_none_eq]
  exact ⟨List.nodup_nil, by intro v hv; cases hv⟩

/-- Claim C3: "no two live Users share an id" is an invariant preserved by
every operation — `createOneUser`, `updateOneUser`, `updateManyUser`,
`deleteOneUser`, `deleteManyUser` and `bigRedButton` — and `createOneUser`
without a supplied id always succeeds with an id that has never been used:
it is outside the recorded id history, and in particular differs from
every live User's id. -/
theorem uniqueId_invariant (s : Store) (h : Inv s) :
    (∀ d u s', createOneUser d s = .ok (u, s') → Inv s')
  ∧ (∀ d w r s', updateOneUser d w s = .ok (r, s') → Inv s')
  ∧ (∀ d F r s', updateManyUser d F s = .ok (r, s') → Inv s')
  ∧ (∀ w, Inv (deleteOneUser w s).2)
  ∧ (∀ F, Inv (deleteManyUser F s).2)
  ∧ Inv (bigRedButton s).2
  ∧ (∀ n, ∃ u s', createOneUser ⟨none, n⟩ s = .ok (u, s')
      ∧ u.id ∉ s.usedIds ∧ ∀ v ∈ s.users, v.id ≠ u.id) := by
  refine ⟨fun d u s' => Inv_createOneUser s h d u s',
    fun d w r s' => Inv_updateOneUser s h d w r s',
    fun d F r s' => Inv_updateManyUser s h d F r s',
    fun w => Inv_deleteOneUser s h w,
    fun F => Inv_deleteManyUser s h F,
    Inv_bigRedButton s, ?_⟩
  intro n
  refine ⟨⟨freshId s.usedIds, n⟩, _, rfl, freshId_not_mem _, ?_⟩
  intro v hv heq
  apply freshId_not_mem s.usedIds
  have hveq : v.id = freshId s.usedIds := heq
  exact hveq ▸ h.2 v hv

theorem uniqueId_invariant_witness :
    Inv (bigRedButton ⟨[⟨"1", "Alice"⟩], ["1"]⟩).2 :=
  (uniqueId_invariant ⟨[⟨"1", "Alice"⟩], ["1"]⟩ ⟨by decide, by decide⟩).2.2.2.2.2.1

end FullstackGraphql
